import Mathlib

/-!
Verification development for the `nestjs-remote-validate` repository.

The repository's core is the `class-validator` constraint
`ApiValidatorConstraint` in `src/validator.constraint.ts`.  Its `validate`
method takes a field value, the per-field `ApiValidatorOptions`
configuration and the validation arguments (field name plus the owning DTO
object), issues at most one HTTP request via the platform `fetch`, and
produces a boolean, possibly writing one extracted value into a target
field of the DTO object.

This file gives a shallow embedding of that method and proves the spec's
claims about it.  JavaScript values are modelled by `JSValue` (enough of
the value universe to decide truthiness and to serialize JSON).  The DTO
object is modelled as a total map from property names to `JSValue`.
Caller-supplied callbacks (`validate`, `extractValue`, `mapBody`) are
modelled as functions into `Except String _` so that a thrown exception is
representable.  The network is modelled by `FetchOutcome`: either the
request settles after `delay` milliseconds with a status and an optional
JSON-parsed body (`none` meaning `response.json()` rejected), or `fetch`
itself rejects (network failure).  The timer plus `AbortController` pair
of the source is modelled by comparing the settle delay with the deadline:
a response that has not arrived when the deadline elapses is an abort
error, exactly what `setTimeout(() => controller.abort(), timeout)` does.
-/

mutual

/-- Model of the JavaScript values the validator manipulates: `undefined`,
`null`, `NaN`, booleans, (integer) numbers, strings, and objects given as
ordered key/value field lists. -/
inductive JSValue where
  | undefined
  | null
  | nan
  | bool (b : Bool)
  | num (n : Int)
  | str (s : String)
  | obj (fields : JSFields)
deriving DecidableEq

/-- Ordered field list of a JavaScript object literal. -/
inductive JSFields where
  | nil
  | cons (key : String) (val : JSValue) (rest : JSFields)
deriving DecidableEq

end

/-- JavaScript truthiness: `undefined`, `null`, `NaN`, `false`, `0` and the
empty string are falsy; every other value, including every object, is
truthy.  This is the semantics of `if (!value)` in the source. -/
def JSValue.truthy : JSValue → Bool
  | .undefined => false
  | .null => false
  | .nan => false
  | .bool b => b
  | .num n => n != 0
  | .str s => s != ""
  | .obj _ => true

/-- JavaScript string coercion (`String(value)`), as applied implicitly by
`encodeURIComponent(value)` in the source when `value` is not a string. -/
def JSValue.jsToString : JSValue → String
  | .undefined => "undefined"
  | .null => "null"
  | .nan => "NaN"
  | .bool true => "true"
  | .bool false => "false"
  | .num n => toString n
  | .str s => s
  | .obj _ => "[object Object]"

/-- Escape one character for JSON output: backslash and double quote are
escaped.  Control-character escaping is irrelevant to the claims; both
sides of every serialization equation go through this same function. -/
def escapeJsonChar (c : Char) : List Char :=
  if c = '\\' then ['\\', '\\']
  else if c = '\"' then ['\\', '\"']
  else [c]

/-- Quote and escape a string for JSON output. -/
def jsonQuote (s : String) : String :=
  "\"" ++ String.mk (s.toList.flatMap escapeJsonChar) ++ "\""

mutual

/-- Model of `JSON.stringify` on `JSValue`.  `undefined` and `NaN`
serialize as `null` would inside a document; the validator only ever
serializes a truthy value (see `ApiValidatorConstraint.validate`), so the
top-level `undefined` case is unreachable there. -/
def jsonStringify : JSValue → String
  | .undefined => "null"
  | .null => "null"
  | .nan => "null"
  | .bool true => "true"
  | .bool false => "false"
  | .num n => toString n
  | .str s => jsonQuote s
  | .obj fields => "\x7b" ++ jsonStringifyFields fields ++ "\x7d"

/-- Serialization of an object's field list, comma separated. -/
def jsonStringifyFields : JSFields → String
  | .nil => ""
  | .cons k v .nil => jsonQuote k ++ ":" ++ jsonStringify v
  | .cons k v rest => jsonQuote k ++ ":" ++ jsonStringify v ++ "," ++ jsonStringifyFields rest

end

/-- ASCII uppercase of one character, the effect of
`String.prototype.toUpperCase` on the ASCII method names at issue. -/
def jsUpperChar (c : Char) : Char :=
  if 97 ≤ c.toNat ∧ c.toNat ≤ 122 then Char.ofNat (c.toNat - 32) else c

/-- Model of `String.prototype.toUpperCase` (ASCII range). -/
def jsToUpperCase (s : String) : String :=
  String.mk (s.toList.map jsUpperChar)

/-- Uppercase hexadecimal digit, for percent-encoding. -/
def hexDigit (n : Nat) : Char :=
  if n < 10 then Char.ofNat (48 + n) else Char.ofNat (55 + n)

/-- Bytes left intact by `encodeURIComponent`: ASCII letters, digits, and
`- _ . ! ~ * ( )` together with the apostrophe (codes 45, 95, 46, 33, 126,
42, 39, 40, 41). -/
def isUnreservedByte (b : Nat) : Bool :=
  (65 ≤ b && b ≤ 90) || (97 ≤ b && b ≤ 122) || (48 ≤ b && b ≤ 57) ||
  b == 45 || b == 95 || b == 46 || b == 33 || b == 126 || b == 42 ||
  b == 39 || b == 40 || b == 41

/-- UTF-8 encoding of one character, as the byte codes. -/
def utf8Bytes (c : Char) : List Nat :=
  let n := c.toNat
  if n < 128 then [n]
  else if n < 2048 then [192 + n / 64, 128 + n % 64]
  else if n < 65536 then [224 + n / 4096, 128 + (n / 64) % 64, 128 + n % 64]
  else [240 + n / 262144, 128 + (n / 4096) % 64, 128 + (n / 64) % 64, 128 + n % 64]

/-- Percent-encode one byte unless it is unreserved. -/
def encodeByte (n : Nat) : List Char :=
  if isUnreservedByte n then [Char.ofNat n]
  else ['%', hexDigit (n / 16), hexDigit (n % 16)]

/-- Model of the platform `encodeURIComponent`: percent-encode every UTF-8
byte outside the unreserved set. -/
def encodeURIComponent (s : String) : String :=
  String.mk (s.toList.flatMap (fun c => (utf8Bytes c).flatMap encodeByte))

/-- Decide whether `needle` occurs as a contiguous run inside a character
list. -/
def charsHaveInfix (needle : List Char) : List Char → Bool
  | [] => needle.isEmpty
  | c :: rest => needle.isPrefixOf (c :: rest) || charsHaveInfix needle rest

/-- Model of `String.prototype.includes` with a string argument. -/
def strIncludes (s sub : String) : Bool := charsHaveInfix sub.toList s.toList

/-- Replace the first occurrence of `needle` in a character list. -/
def replaceFirstChars (needle repl : List Char) : List Char → List Char
  | [] => []
  | c :: rest =>
    if needle.isPrefixOf (c :: rest) then repl ++ (c :: rest).drop needle.length
    else c :: replaceFirstChars needle repl rest

/-- Model of `String.prototype.replace` with a string pattern: only the
first occurrence is replaced.  The replacement produced by
`encodeURIComponent` never contains `$`, so the dollar-pattern rules of
the platform function are not reachable from the validator. -/
def jsReplace (s pattern repl : String) : String :=
  if pattern = "" then repl ++ s
  else String.mk (replaceFirstChars pattern.toList repl.toList s.toList)

/-- Embedding of the `ApiValidatorOptions` interface
(`src/interfaces.ts`), restricted to the fields `validate` reads.  The
three callbacks return in `Except String _` so that a callback that
throws is representable; `required`, `method`, `timeout`, `targetField`
keep their optionality.  `mapBody` (accepted through the interface's index
signature and used by the constraint) receives the raw value and the DTO
object. -/
structure ApiValidatorOptions where
  host : String
  method : Option String := none
  headers : List (String × String) := []
  required : Option Bool := none
  validate : Option (Nat → JSValue → Except String Bool) := none
  extractValue : Option (JSValue → Except String JSValue) := none
  targetField : Option String := none
  mapBody : Option (JSValue → (String → JSValue) → Except String JSValue) := none
  timeout : Option Nat := none

/-- Behaviour of the network for the one `fetch` call: either the request
settles after `delay` milliseconds with an HTTP status and the result of
`response.json()` (`none` when the body is not parseable JSON), or the
fetch rejects outright (network failure). -/
inductive FetchOutcome where
  | respond (delay : Nat) (status : Nat) (jsonBody : Option JSValue)
  | fail
deriving DecidableEq

/-- The observable parameters of the issued HTTP request: resolved URL,
resolved method, headers, serialized body (`none` when the `body` option
is `undefined`), and the abort deadline armed via `AbortController`. -/
structure FetchRequest where
  url : String
  method : String
  headers : List (String × String)
  body : Option String
  timeoutMs : Nat
deriving DecidableEq

/-- Result of the `try` block: the returned boolean, or the message of a
thrown/rejected error that the surrounding `catch` will receive. -/
inductive TryOutcome where
  | ok (b : Bool)
  | thrown (msg : String)
deriving DecidableEq

/-- Everything observable about one call of the validator: the boolean
result, the final state of the DTO object, and the request given to
`fetch`, if any was issued. -/
structure ValidateOutput where
  result : Bool
  object : String → JSValue
  request : Option FetchRequest

/-- URL resolution, lines 111 to 114 of the constraint: when the host
contains the literal `:` + property placeholder, its first occurrence is
replaced by the URL-encoded (string-coerced) value. -/
def resolveUrl (host property : String) (value : JSValue) : String :=
  if strIncludes host (":" ++ property) then
    jsReplace host (":" ++ property) (encodeURIComponent value.jsToString)
  else host

/-- Method resolution, line 116: `(config.method || "POST").toUpperCase()`.
The empty string is falsy, so it also falls back to `POST`. -/
def resolveMethod (m : Option String) : String :=
  jsToUpperCase (match m with
    | some s => if s != "" then s else "POST"
    | none => "POST")

/-- Line 117: a body is allowed for every method except GET and HEAD. -/
def isBodyAllowed (method : String) : Bool :=
  !(method == "GET" || method == "HEAD")

/-- Body computation, lines 119 to 126: when a body is allowed, it is the
`mapBody` result if that callback is configured (and it may throw),
otherwise the single-key object with the property name and raw value;
when no body is allowed, `bodyData` stays `null`. -/
def computeBodyData (config : ApiValidatorOptions) (value : JSValue)
    (property : String) (object : String → JSValue) : Except String JSValue :=
  if isBodyAllowed (resolveMethod config.method) then
    match config.mapBody with
    | some f => f value object
    | none => .ok (.obj (.cons property value .nil))
  else .ok .null

/-- Point update of the DTO object map, the effect of
`(args.object as any)[targetField] = extracted`. -/
def updateObject (object : String → JSValue) (key : String) (v : JSValue) :
    String → JSValue :=
  fun k => if k = key then v else object k

/-- Extraction side effect, lines 146 to 153: runs only when
`extractValue` is configured and the parsed body is truthy; the write
happens only when the extracted value is not `undefined` and the target
field name is truthy (present and non-empty).  A throwing `extractValue`
propagates before any write. -/
def applyExtraction (config : ApiValidatorOptions) (data : JSValue)
    (object : String → JSValue) : Except String (String → JSValue) :=
  match config.extractValue with
  | some f =>
    if data.truthy then
      match f data with
      | .error e => .error e
      | .ok extracted =>
        match config.targetField with
        | some targetField =>
          if extracted ≠ JSValue.undefined ∧ targetField ≠ "" then
            .ok (updateObject object targetField extracted)
          else .ok object
        | none => .ok object
    else .ok object
  | none => .ok object

/-- The WHATWG fetch definition of `Response.ok`: status in the inclusive
range 200 to 299. -/
def responseOk (status : Nat) : Bool :=
  decide (200 ≤ status ∧ status ≤ 299)

/-- Final decision, lines 155 to 159: a configured custom predicate is
called with the status and parsed body and its result returned (it may
throw); otherwise the result is `response.ok`. -/
def finalResult (config : ApiValidatorOptions) (status : Nat)
    (data : JSValue) : Except String Bool :=
  match config.validate with
  | some p => p status data
  | none => .ok (responseOk status)

/-- The `try` block of `validate`, lines 110 to 159, as one state-passing
function: it yields the `TryOutcome`, the final DTO object, and the
request handed to `fetch` when execution reached the `fetch` call.  The
abort timer is modelled by the deadline comparison: a response that has
not settled strictly before the deadline is an `AbortError` rejection. -/
def tryValidate (config : ApiValidatorOptions) (value : JSValue)
    (property : String) (object : String → JSValue) (env : FetchOutcome) :
    TryOutcome × (String → JSValue) × Option FetchRequest :=
  let url := resolveUrl config.host property value
  let method := resolveMethod config.method
  match computeBodyData config value property object with
  | .error e => (.thrown e, object, none)
  | .ok bodyData =>
    let timeout := config.timeout.getD 5000
    let req : FetchRequest :=
      { url := url, method := method, headers := config.headers,
        body := if bodyData.truthy then some (jsonStringify bodyData) else none,
        timeoutMs := timeout }
    match env with
    | .fail => (.thrown "fetch failed", object, some req)
    | .respond delay status jsonBody =>
      if timeout ≤ delay then (.thrown "AbortError", object, some req)
      else
        let data := jsonBody.getD JSValue.null
        match applyExtraction config data object with
        | .error e => (.thrown e, object, some req)
        | .ok object2 =>
          match finalResult config status data with
          | .error e => (.thrown e, object2, some req)
          | .ok b => (.ok b, object2, some req)

/-- Embedding of `ApiValidatorConstraint.validate`
(`src/validator.constraint.ts`, lines 103 to 164): a falsy value is
decided locally as the negation of the `required` flag with no request;
otherwise the `try` block runs and any thrown error is caught, logged and
converted to `false`. -/
def ApiValidatorConstraint.validate (config : ApiValidatorOptions)
    (value : JSValue) (property : String) (object : String → JSValue)
    (env : FetchOutcome) : ValidateOutput :=
  if !value.truthy then
    { result := !(config.required.getD false), object := object, request := none }
  else
    match tryValidate config value property object env with
    | (.ok b, object2, req) => { result := b, object := object2, request := req }
    | (.thrown _, object2, req) => { result := false, object := object2, request := req }

/-- Convenience projection fact: for a truthy value the final `request`
field is the request component produced by the `try` block, whichever way
that block ended. -/
theorem validate_request_eq (config : ApiValidatorOptions) (value : JSValue)
    (property : String) (object : String → JSValue) (env : FetchOutcome)
    (hv : value.truthy = true) :
    (ApiValidatorConstraint.validate config value property object env).request
      = (tryValidate config value property object env).2.2 := by
  unfold ApiValidatorConstraint.validate
  rw [hv]
  cases htv : tryValidate config value property object env with
  | mk out rest =>
    cases rest with
    | mk object2 req => cases out <;> simp

/-- Convenience projection fact: for a truthy value the final DTO object
is the object component produced by the `try` block. -/
theorem validate_object_eq (config : ApiValidatorOptions) (value : JSValue)
    (property : String) (object : String → JSValue) (env : FetchOutcome)
    (hv : value.truthy = true) :
    (ApiValidatorConstraint.validate config value property object env).object
      = (tryValidate config value property object env).2.1 := by
  unfold ApiValidatorConstraint.validate
  rw [hv]
  cases htv : tryValidate config value property object env with
  | mk out rest =>
    cases rest with
    | mk object2 req => cases out <;> simp

/-- Shape of the issued request: whenever the `try` block hands a request
to `fetch`, its fields are exactly the resolved URL, the resolved method,
the configured headers, the serialization of the computed truthy body (no
body when the computed body is falsy), and the configured deadline. -/
theorem tryValidate_request_spec (config : ApiValidatorOptions) (value : JSValue)
    (property : String) (object : String → JSValue) (env : FetchOutcome) :
    (tryValidate config value property object env).2.2 = none ∨
    ∃ bd, computeBodyData config value property object = Except.ok bd ∧
      (tryValidate config value property object env).2.2 =
        some { url := resolveUrl config.host property value,
               method := resolveMethod config.method,
               headers := config.headers,
               body := if bd.truthy then some (jsonStringify bd) else none,
               timeoutMs := config.timeout.getD 5000 } := by
  unfold tryValidate
  cases hcb : computeBodyData config value property object with
  | error e => left; rfl
  | ok bd =>
    right
    refine ⟨bd, rfl, ?_⟩
    cases env with
    | fail => rfl
    | respond delay status jsonBody =>
      by_cases hto : config.timeout.getD 5000 ≤ delay
      · simp [hto]
      · simp only [if_neg hto]
        cases applyExtraction config (jsonBody.getD JSValue.null) object with
        | error e => rfl
        | ok object2 =>
          cases finalResult config status (jsonBody.getD JSValue.null) with
          | error e => rfl
          | ok b => rfl

/-- C1: for every config and context, if the field value is empty (falsy),
`validate` returns the negation of `config.required` — `true` when
`required` is false or unset and `false` when it is true — and no HTTP
request is issued. -/
theorem empty_value_resolved_locally (config : ApiValidatorOptions)
    (value : JSValue) (property : String) (object : String → JSValue)
    (env : FetchOutcome) (h : value.truthy = false) :
    (ApiValidatorConstraint.validate config value property object env).result
      = !(config.required.getD false) ∧
    (ApiValidatorConstraint.validate config value property object env).request
      = none := by
  simp [ApiValidatorConstraint.validate, h]

/-- Witness for C1 at a concrete input: a null value with `required` set
to true yields `false` and no request. -/
theorem empty_value_resolved_locally_witness :
    JSValue.null.truthy = false ∧
    ((ApiValidatorConstraint.validate { host := "https://api.com", required := some true }
        JSValue.null "cpf" (fun _ => JSValue.undefined) FetchOutcome.fail).result
      = !((some true : Option Bool).getD false) ∧
     (ApiValidatorConstraint.validate { host := "https://api.com", required := some true }
        JSValue.null "cpf" (fun _ => JSValue.undefined) FetchOutcome.fail).request
      = none) :=
  ⟨rfl, empty_value_resolved_locally _ _ _ _ _ rfl⟩

/-- C10: emptiness is JavaScript falsiness.  For every config, each of the
values `0`, `false`, the empty string, `NaN`, `null` and `undefined` is
treated as empty: `validate` returns the negation of `required` and
issues no HTTP request, leaving the DTO object untouched. -/
theorem js_falsiness_decides_emptiness (config : ApiValidatorOptions)
    (property : String) (object : String → JSValue) (env : FetchOutcome) :
    (ApiValidatorConstraint.validate config (JSValue.num 0) property object env
      = ⟨!(config.required.getD false), object, none⟩) ∧
    (ApiValidatorConstraint.validate config (JSValue.bool false) property object env
      = ⟨!(config.required.getD false), object, none⟩) ∧
    (ApiValidatorConstraint.validate config (JSValue.str "") property object env
      = ⟨!(config.required.getD false), object, none⟩) ∧
    (ApiValidatorConstraint.validate config JSValue.nan property object env
      = ⟨!(config.required.getD false), object, none⟩) ∧
    (ApiValidatorConstraint.validate config JSValue.null property object env
      = ⟨!(config.required.getD false), object, none⟩) ∧
    (ApiValidatorConstraint.validate config JSValue.undefined property object env
      = ⟨!(config.required.getD false), object, none⟩) :=
  ⟨rfl, rfl, rfl, rfl, rfl, rfl⟩

/-- C3: for a non-empty value, whenever the `try` block ends in a thrown
error — mapBody throwing during body construction, a rejected fetch, the
abort of a timed-out request, a throwing `extractValue`, or a throwing
custom predicate — the validator catches it and returns `false`; by
construction of the embedding no exception escapes `validate`. -/
theorem thrown_errors_yield_false (config : ApiValidatorOptions)
    (value : JSValue) (property : String) (object : String → JSValue)
    (env : FetchOutcome) (msg : String) (object2 : String → JSValue)
    (req : Option FetchRequest) (hv : value.truthy = true)
    (ht : tryValidate config value property object env
      = (TryOutcome.thrown msg, object2, req)) :
    (ApiValidatorConstraint.validate config value property object env).result
      = false := by
  simp [ApiValidatorConstraint.validate, hv, ht]

/-- Witness for C3 at a concrete input: a rejected fetch (network
failure) makes the concrete call return `false`. -/
theorem thrown_errors_yield_false_witness :
    (JSValue.str "1").truthy = true ∧
    tryValidate { host := "h", method := some "GET" } (JSValue.str "1") "f"
        (fun _ => JSValue.null) FetchOutcome.fail
      = (TryOutcome.thrown "fetch failed", fun _ => JSValue.null,
         some { url := "h", method := "GET", headers := [], body := none,
                timeoutMs := 5000 }) ∧
    (ApiValidatorConstraint.validate { host := "h", method := some "GET" }
        (JSValue.str "1") "f" (fun _ => JSValue.null) FetchOutcome.fail).result
      = false :=
  ⟨rfl, rfl, thrown_errors_yield_false _ _ _ _ _ "fetch failed" _ _ rfl rfl⟩

/-- C2: for a non-empty value and a response obtained with nothing thrown
(the body computation succeeded, the response settled before the
deadline, and the extraction step did not throw), the final boolean is
the configured custom predicate applied to the status and parsed body —
whatever the raw status is — and, with no custom predicate, it is true
exactly when the status is 2xx (`response.ok`). -/
theorem final_result_decision (config : ApiValidatorOptions) (value : JSValue)
    (property : String) (object : String → JSValue)
    (delay status : Nat) (jsonBody : Option JSValue)
    (hv : value.truthy = true)
    (hbd : ∃ bd, computeBodyData config value property object = Except.ok bd)
    (hex : ∃ object2, applyExtraction config (jsonBody.getD JSValue.null) object
      = Except.ok object2)
    (hd : delay < config.timeout.getD 5000) :
    (∀ p : Nat → JSValue → Bool,
      config.validate = some (fun s b => Except.ok (p s b)) →
      (ApiValidatorConstraint.validate config value property object
        (FetchOutcome.respond delay status jsonBody)).result
        = p status (jsonBody.getD JSValue.null)) ∧
    (config.validate = none →
      (ApiValidatorConstraint.validate config value property object
        (FetchOutcome.respond delay status jsonBody)).result
        = responseOk status) := by
  obtain ⟨bd, hbd⟩ := hbd
  obtain ⟨object2, hex⟩ := hex
  have hnd : ¬ (config.timeout.getD 5000 ≤ delay) := Nat.not_le.mpr hd
  constructor
  · intro p hp
    simp [ApiValidatorConstraint.validate, tryValidate, hv, hbd, hnd, hex,
      finalResult, hp]
  · intro hp
    simp [ApiValidatorConstraint.validate, tryValidate, hv, hbd, hnd, hex,
      finalResult, hp]

/-- Witness for C2 at a concrete input: with no custom predicate a 200
response yields `responseOk 200`, hence `true`. -/
theorem final_result_decision_witness :
    (JSValue.str "v").truthy = true ∧
    (0 < ({ host := "h" } : ApiValidatorOptions).timeout.getD 5000) ∧
    (ApiValidatorConstraint.validate { host := "h" } (JSValue.str "v") "f"
      (fun _ => JSValue.null) (FetchOutcome.respond 0 200 none)).result
      = responseOk 200 :=
  ⟨rfl, by decide,
    (final_result_decision { host := "h" } (JSValue.str "v") "f"
      (fun _ => JSValue.null) 0 200 none rfl ⟨_, rfl⟩ ⟨_, rfl⟩ (by decide)).2 rfl⟩

/-- C5: for a non-empty value, whenever a request is actually issued its
URL is the configured host with the first occurrence of the literal
colon-property placeholder replaced by the URL-encoded field value when
the host contains that placeholder, and the host unchanged otherwise. -/
theorem url_placeholder_resolution (config : ApiValidatorOptions)
    (value : JSValue) (property : String) (object : String → JSValue)
    (env : FetchOutcome) (hv : value.truthy = true) :
    ∀ r, (ApiValidatorConstraint.validate config value property object env).request
        = some r →
      r.url = (if strIncludes config.host (":" ++ property)
               then jsReplace config.host (":" ++ property)
                 (encodeURIComponent value.jsToString)
               else config.host) := by
  intro r hr
  rw [validate_request_eq config value property object env hv] at hr
  rcases tryValidate_request_spec config value property object env with h | ⟨bd, _, h⟩
  · rw [h] at hr; exact absurd hr (by simp)
  · rw [h] at hr
    have := Option.some.inj hr
    rw [← this]
    rfl

/-- Witness for C5 at a concrete input: the spec's own example, a GET to
`https://api.com/todos/:todoId` with value `"1"`, resolves to
`https://api.com/todos/1`. -/
theorem url_placeholder_resolution_witness :
    (JSValue.str "1").truthy = true ∧
    (ApiValidatorConstraint.validate
        { host := "https://api.com/todos/:todoId", method := some "GET",
          required := some true }
        (JSValue.str "1") "todoId" (fun _ => JSValue.null)
        (FetchOutcome.respond 0 200 none)).request
      = some { url := "https://api.com/todos/1", method := "GET", headers := [],
               body := none, timeoutMs := 5000 } ∧
    FetchRequest.url
        { url := "https://api.com/todos/1", method := "GET", headers := [],
          body := none, timeoutMs := 5000 }
      = (if strIncludes "https://api.com/todos/:todoId" (":" ++ "todoId")
         then jsReplace "https://api.com/todos/:todoId" (":" ++ "todoId")
           (encodeURIComponent (JSValue.str "1").jsToString)
         else "https://api.com/todos/:todoId") :=
  ⟨rfl, by decide,
    url_placeholder_resolution
      { host := "https://api.com/todos/:todoId", method := some "GET",
        required := some true }
      (JSValue.str "1") "todoId" (fun _ => JSValue.null)
      (FetchOutcome.respond 0 200 none) rfl
      { url := "https://api.com/todos/1", method := "GET", headers := [],
        body := none, timeoutMs := 5000 } (by decide)⟩

/-- C8: a response whose body fails to parse as JSON is tolerated — the
parsed body is treated as `null` — and validation does not fail for that
reason alone: with no custom predicate a 2xx status still yields `true`,
and a configured custom predicate simply receives `null` as the body. -/
theorem json_parse_failure_tolerated (config : ApiValidatorOptions)
    (value : JSValue) (property : String) (object : String → JSValue)
    (delay status : Nat) (hv : value.truthy = true)
    (hbd : ∃ bd, computeBodyData config value property object = Except.ok bd)
    (hd : delay < config.timeout.getD 5000) :
    (config.validate = none → 200 ≤ status → status ≤ 299 →
      (ApiValidatorConstraint.validate config value property object
        (FetchOutcome.respond delay status none)).result = true) ∧
    (∀ p : Nat → JSValue → Bool,
      config.validate = some (fun s b => Except.ok (p s b)) →
      (ApiValidatorConstraint.validate config value property object
        (FetchOutcome.respond delay status none)).result
        = p status JSValue.null) := by
  obtain ⟨bd, hbd⟩ := hbd
  have hnd : ¬ (config.timeout.getD 5000 ≤ delay) := Nat.not_le.mpr hd
  have hex : applyExtraction config JSValue.null object = Except.ok object := by
    cases hf : config.extractValue with
    | none => simp [applyExtraction, hf]
    | some f => simp [applyExtraction, hf, JSValue.truthy]
  constructor
  · intro hp h200 h299
    simp [ApiValidatorConstraint.validate, tryValidate, hv, hbd, hnd, hex,
      finalResult, hp, responseOk, h200, h299]
  · intro p hp
    simp [ApiValidatorConstraint.validate, tryValidate, hv, hbd, hnd, hex,
      finalResult, hp]

/-- Witness for C8 at a concrete input: an unparseable body with a 204
status and no custom predicate still validates to `true`. -/
theorem json_parse_failure_tolerated_witness :
    (JSValue.str "v").truthy = true ∧
    (ApiValidatorConstraint.validate { host := "h", required := some true }
      (JSValue.str "v") "f" (fun _ => JSValue.null)
      (FetchOutcome.respond 0 204 none)).result = true :=
  ⟨rfl,
    (json_parse_failure_tolerated { host := "h", required := some true }
      (JSValue.str "v") "f" (fun _ => JSValue.null) 0 204 rfl ⟨_, rfl⟩
      (by decide)).1 rfl (by decide) (by decide)⟩

/-- Helper: for a truthy value, a `try` block that ends in a thrown error
makes the whole call return `false`. -/
theorem result_false_of_thrown (config : ApiValidatorOptions)
    (value : JSValue) (property : String) (object : String → JSValue)
    (env : FetchOutcome) (msg : String) (object2 : String → JSValue)
    (req : Option FetchRequest) (hv : value.truthy = true)
    (ht : tryValidate config value property object env
      = (TryOutcome.thrown msg, object2, req)) :
    (ApiValidatorConstraint.validate config value property object env).result
      = false := by
  simp [ApiValidatorConstraint.validate, hv, ht]

/-- Helper: once the deadline is not after the settle time, the `try`
block always ends in a thrown error — either the body computation threw
already, or the armed timer fires and aborts the in-flight request. -/
theorem tryValidate_abort (config : ApiValidatorOptions) (value : JSValue)
    (property : String) (object : String → JSValue)
    (delay status : Nat) (jsonBody : Option JSValue)
    (hto : config.timeout.getD 5000 ≤ delay) :
    ∃ msg object2 req, tryValidate config value property object
      (FetchOutcome.respond delay status jsonBody)
      = (TryOutcome.thrown msg, object2, req) := by
  unfold tryValidate
  cases computeBodyData config value property object with
  | error e => exact ⟨e, _, _, rfl⟩
  | ok bd =>
    refine ⟨"AbortError", object,
      some { url := resolveUrl config.host property value,
             method := resolveMethod config.method,
             headers := config.headers,
             body := if bd.truthy then some (jsonStringify bd) else none,
             timeoutMs := config.timeout.getD 5000 }, ?_⟩
    simp [hto]

/-- C9: for a non-empty value, every issued request carries an abort
deadline equal to the configured timeout, 5000 ms when unset; and a
response still unanswered when that deadline elapses is aborted, which
resolves the validation to `false`. -/
theorem timeout_deadline_and_abort (config : ApiValidatorOptions)
    (value : JSValue) (property : String) (object : String → JSValue)
    (env : FetchOutcome) (hv : value.truthy = true) :
    (∀ r, (ApiValidatorConstraint.validate config value property object env).request
        = some r → r.timeoutMs = config.timeout.getD 5000) ∧
    (∀ delay status jsonBody, env = FetchOutcome.respond delay status jsonBody →
      config.timeout.getD 5000 ≤ delay →
      (ApiValidatorConstraint.validate config value property object env).result
        = false) := by
  constructor
  · intro r hr
    rw [validate_request_eq config value property object env hv] at hr
    rcases tryValidate_request_spec config value property object env with h | ⟨bd, _, h⟩
    · rw [h] at hr; exact absurd hr (by simp)
    · rw [h] at hr
      have := Option.some.inj hr
      rw [← this]
  · intro delay status jsonBody henv hto
    subst henv
    obtain ⟨msg, object2, req, ht⟩ :=
      tryValidate_abort config value property object delay status jsonBody hto
    exact result_false_of_thrown config value property object _ msg object2 req hv ht

/-- Witness for C9 at a concrete input: with a configured timeout of 100
ms, the issued request carries deadline 100 and a response arriving at
200 ms resolves to `false`. -/
theorem timeout_deadline_and_abort_witness :
    (JSValue.str "value").truthy = true ∧
    FetchRequest.timeoutMs
        { url := "h", method := "POST", headers := [],
          body := some (jsonStringify (JSValue.obj
            (JSFields.cons "field" (JSValue.str "value") JSFields.nil))),
          timeoutMs := 100 }
      = ({ host := "h", required := some true, timeout := some 100 }
          : ApiValidatorOptions).timeout.getD 5000 ∧
    (ApiValidatorConstraint.validate
      { host := "h", required := some true, timeout := some 100 }
      (JSValue.str "value") "field" (fun _ => JSValue.null)
      (FetchOutcome.respond 200 200 (some (JSValue.obj JSFields.nil)))).result
      = false :=
  ⟨rfl,
    (timeout_deadline_and_abort
      { host := "h", required := some true, timeout := some 100 }
      (JSValue.str "value") "field" (fun _ => JSValue.null)
      (FetchOutcome.respond 200 200 (some (JSValue.obj JSFields.nil))) rfl).1
      { url := "h", method := "POST", headers := [],
        body := some (jsonStringify (JSValue.obj
          (JSFields.cons "field" (JSValue.str "value") JSFields.nil))),
        timeoutMs := 100 } (by decide),
    (timeout_deadline_and_abort
      { host := "h", required := some true, timeout := some 100 }
      (JSValue.str "value") "field" (fun _ => JSValue.null)
      (FetchOutcome.respond 200 200 (some (JSValue.obj JSFields.nil))) rfl).2
      200 200 (some (JSValue.obj JSFields.nil)) rfl (by decide)⟩

/-- Helper: a method different from GET and HEAD allows a body. -/
theorem isBodyAllowed_true (m : String) (hg : m ≠ "GET") (hh : m ≠ "HEAD") :
    isBodyAllowed m = true := by
  simp [isBodyAllowed, hg, hh]

/-- Helper: GET and HEAD forbid a body. -/
theorem isBodyAllowed_false (m : String) (h : m = "GET" ∨ m = "HEAD") :
    isBodyAllowed m = false := by
  rcases h with h | h <;> simp [isBodyAllowed, h]

/-- Counterexample to C4 as stated: the source guards the body with
`bodyData ? JSON.stringify(bodyData) : undefined`, so with method POST
and a body-mapping function returning the falsy value `false` the issued
request carries no body at all — not the serialization `"false"` of the
mapper's result that the claim requires. -/
theorem falsy_mapBody_result_sends_no_body :
    ((ApiValidatorConstraint.validate
        { host := "h", mapBody := some (fun _ _ => Except.ok (JSValue.bool false)) }
        (JSValue.str "x") "f" (fun _ => JSValue.undefined)
        (FetchOutcome.respond 0 200 none)).request.map FetchRequest.body)
      ≠ some (some (jsonStringify (JSValue.bool false))) := by decide

/-- C4 (amended): for a non-empty value, when the resolved method
(default POST) is neither GET nor HEAD, the outbound body is the JSON
serialization of the body-mapping function's result if one is configured
and that result is truthy — a falsy mapper result sends no body — and
the serialization of the single-key object with the field name and value
when no mapper is configured; when the method is GET or HEAD no body is
sent even if a body-mapping function is configured. -/
theorem request_body_construction (config : ApiValidatorOptions)
    (value : JSValue) (property : String) (object : String → JSValue)
    (env : FetchOutcome) (hv : value.truthy = true) :
    (∀ f bodyData r,
      config.mapBody = some f → f value object = Except.ok bodyData →
      resolveMethod config.method ≠ "GET" → resolveMethod config.method ≠ "HEAD" →
      (ApiValidatorConstraint.validate config value property object env).request
        = some r →
      r.body = if bodyData.truthy then some (jsonStringify bodyData) else none) ∧
    (∀ r, config.mapBody = none →
      resolveMethod config.method ≠ "GET" → resolveMethod config.method ≠ "HEAD" →
      (ApiValidatorConstraint.validate config value property object env).request
        = some r →
      r.body = some (jsonStringify
        (JSValue.obj (JSFields.cons property value JSFields.nil)))) ∧
    (∀ r, (resolveMethod config.method = "GET" ∨ resolveMethod config.method = "HEAD") →
      (ApiValidatorConstraint.validate config value property object env).request
        = some r →
      r.body = none) := by
  refine ⟨?_, ?_, ?_⟩
  · intro f bodyData r hm hf hg hh hr
    rw [validate_request_eq config value property object env hv] at hr
    rcases tryValidate_request_spec config value property object env with h | ⟨bd, hcb, h⟩
    · rw [h] at hr; exact absurd hr (by simp)
    · rw [h] at hr
      have hba := isBodyAllowed_true (resolveMethod config.method) hg hh
      simp only [computeBodyData, hba, if_true, hm] at hcb
      rw [hf] at hcb
      obtain rfl := Except.ok.inj hcb
      rw [← Option.some.inj hr]
  · intro r hm hg hh hr
    rw [validate_request_eq config value property object env hv] at hr
    rcases tryValidate_request_spec config value property object env with h | ⟨bd, hcb, h⟩
    · rw [h] at hr; exact absurd hr (by simp)
    · rw [h] at hr
      have hba := isBodyAllowed_true (resolveMethod config.method) hg hh
      simp only [computeBodyData, hba, if_true, hm] at hcb
      obtain rfl := Except.ok.inj hcb
      rw [← Option.some.inj hr]
      simp [JSValue.truthy]
  · intro r hgh hr
    rw [validate_request_eq config value property object env hv] at hr
    rcases tryValidate_request_spec config value property object env with h | ⟨bd, hcb, h⟩
    · rw [h] at hr; exact absurd hr (by simp)
    · rw [h] at hr
      have hba := isBodyAllowed_false (resolveMethod config.method) hgh
      simp only [computeBodyData, hba, Bool.false_eq_true, if_false] at hcb
      obtain rfl := Except.ok.inj hcb
      rw [← Option.some.inj hr]
      simp [JSValue.truthy]

/-- Witness for the amended C4 at a concrete input: a POST with a
body-mapping function that wraps the value under the key `id` sends the
serialization of that (truthy) result. -/
theorem request_body_construction_witness :
    (JSValue.str "123").truthy = true ∧
    FetchRequest.body
        { url := "h", method := "POST", headers := [],
          body := some "\x7b\"id\":\"123\"\x7d", timeoutMs := 5000 }
      = (if (JSValue.obj (JSFields.cons "id" (JSValue.str "123") JSFields.nil)).truthy
         then some (jsonStringify
           (JSValue.obj (JSFields.cons "id" (JSValue.str "123") JSFields.nil)))
         else none) :=
  ⟨rfl,
    (request_body_construction
      { host := "h",
        mapBody := some (fun v _ =>
          Except.ok (JSValue.obj (JSFields.cons "id" v JSFields.nil))) }
      (JSValue.str "123") "userCode" (fun _ => JSValue.null)
      (FetchOutcome.respond 0 200 none) rfl).1
      (fun v _ => Except.ok (JSValue.obj (JSFields.cons "id" v JSFields.nil)))
      (JSValue.obj (JSFields.cons "id" (JSValue.str "123") JSFields.nil))
      { url := "h", method := "POST", headers := [],
        body := some "\x7b\"id\":\"123\"\x7d", timeoutMs := 5000 }
      rfl rfl (by decide) (by decide) (by decide)⟩

/-- Counterexample to C6 as stated: a JSON body is obtained but parses to
the falsy value `false`; the guard `config.extractValue && data` is then
false, so even with an extraction function returning `"T"` and target
field `"out"` configured, the injection is skipped and the target field
does not receive the extracted value. -/
theorem falsy_json_body_skips_extraction :
    ¬ ((ApiValidatorConstraint.validate
        { host := "h", extractValue := some (fun _ => Except.ok (JSValue.str "T")),
          targetField := some "out" }
        (JSValue.str "1") "p" (fun _ => JSValue.undefined)
        (FetchOutcome.respond 0 200 (some (JSValue.bool false)))).object "out"
      = JSValue.str "T") := by decide

/-- C6 (amended): with an extraction function and a non-empty target-field
name configured, whenever a truthy JSON body is obtained from a response
that settles before the deadline and the extracted value is not
`undefined`, the named target field of the DTO object equals the extracted
value after the call — independently of the final pass/fail result, since
no hypothesis constrains the custom predicate (it may even throw). -/
theorem extraction_injects_target_field (config : ApiValidatorOptions)
    (value : JSValue) (property : String) (object : String → JSValue)
    (delay status : Nat) (d : JSValue)
    (f : JSValue → Except String JSValue) (targetField : String)
    (extracted : JSValue)
    (hv : value.truthy = true)
    (hbd : ∃ bd, computeBodyData config value property object = Except.ok bd)
    (hd : delay < config.timeout.getD 5000)
    (hf : config.extractValue = some f)
    (htf : config.targetField = some targetField)
    (htfne : targetField ≠ "")
    (hdt : d.truthy = true)
    (hext : f d = Except.ok extracted)
    (hne : extracted ≠ JSValue.undefined) :
    (ApiValidatorConstraint.validate config value property object
      (FetchOutcome.respond delay status (some d))).object targetField
      = extracted := by
  obtain ⟨bd, hbd⟩ := hbd
  have hnd : ¬ (config.timeout.getD 5000 ≤ delay) := Nat.not_le.mpr hd
  have hax : applyExtraction config d object
      = Except.ok (updateObject object targetField extracted) := by
    simp [applyExtraction, hf, hdt, hext, htf, hne, htfne]
  cases hfr : finalResult config status d with
  | error e =>
    simp [ApiValidatorConstraint.validate, tryValidate, hv, hbd, hnd, hax, hfr,
      updateObject]
  | ok b =>
    simp [ApiValidatorConstraint.validate, tryValidate, hv, hbd, hnd, hax, hfr,
      updateObject]

/-- Witness for the amended C6 at a concrete input: mirroring the
repository's own test, the `title` field of the response body lands in
`todoTitle` on the DTO object. -/
theorem extraction_injects_target_field_witness :
    ("todoTitle" ≠ "" ∧ JSValue.str "My Todo" ≠ JSValue.undefined) ∧
    (ApiValidatorConstraint.validate
      { host := "https://api.com",
        extractValue := some (fun body => Except.ok (match body with
          | JSValue.obj (JSFields.cons "title" v _) => v
          | _ => JSValue.undefined)),
        targetField := some "todoTitle" }
      (JSValue.str "123") "f" (fun _ => JSValue.undefined)
      (FetchOutcome.respond 0 200
        (some (JSValue.obj (JSFields.cons "title" (JSValue.str "My Todo")
          JSFields.nil))))).object "todoTitle" = JSValue.str "My Todo" :=
  ⟨⟨by decide, by decide⟩,
    extraction_injects_target_field
      { host := "https://api.com",
        extractValue := some (fun body => Except.ok (match body with
          | JSValue.obj (JSFields.cons "title" v _) => v
          | _ => JSValue.undefined)),
        targetField := some "todoTitle" }
      (JSValue.str "123") "f" (fun _ => JSValue.undefined) 0 200
      (JSValue.obj (JSFields.cons "title" (JSValue.str "My Todo") JSFields.nil))
      (fun body => Except.ok (match body with
        | JSValue.obj (JSFields.cons "title" v _) => v
        | _ => JSValue.undefined))
      "todoTitle" (JSValue.str "My Todo")
      rfl ⟨_, rfl⟩ (by decide) rfl rfl (by decide) rfl rfl (by decide)⟩

/-- Helper: the extraction step changes the DTO object at most at the
configured target field, and any change requires a configured extraction
function, that exact target field, and a truthy parsed body. -/
theorem applyExtraction_frame (config : ApiValidatorOptions) (data : JSValue)
    (object object2 : String → JSValue)
    (h : applyExtraction config data object = Except.ok object2) :
    (∀ k, config.targetField ≠ some k → object2 k = object k) ∧
    (∀ k, object2 k ≠ object k →
      config.extractValue.isSome = true ∧ config.targetField = some k ∧
      data.truthy = true) := by
  cases hf : config.extractValue with
  | none =>
    simp only [applyExtraction, hf] at h
    obtain rfl := Except.ok.inj h
    exact ⟨fun k _ => rfl, fun k hk => absurd rfl hk⟩
  | some f =>
    simp only [applyExtraction, hf] at h
    by_cases hdt : data.truthy = true
    · rw [if_pos hdt] at h
      cases hfd : f data with
      | error e => exact absurd h (by simp [hfd])
      | ok extracted =>
        simp only [hfd] at h
        cases htf : config.targetField with
        | none =>
          simp only [htf] at h
          obtain rfl := Except.ok.inj h
          exact ⟨fun k _ => rfl, fun k hk => absurd rfl hk⟩
        | some targetField =>
          simp only [htf] at h
          by_cases hc : extracted ≠ JSValue.undefined ∧ targetField ≠ ""
          · rw [if_pos hc] at h
            obtain rfl := Except.ok.inj h
            constructor
            · intro k hk
              have : k ≠ targetField := fun he => hk (he ▸ rfl)
              simp [updateObject, this]
            · intro k hk
              by_cases hkt : k = targetField
              · exact ⟨by simp [hf], by rw [hkt], hdt⟩
              · exact absurd (by simp [updateObject, hkt]) hk
          · rw [if_neg hc] at h
            obtain rfl := Except.ok.inj h
            exact ⟨fun k _ => rfl, fun k hk => absurd rfl hk⟩
    · rw [if_neg hdt] at h
      obtain rfl := Except.ok.inj h
      exact ⟨fun k _ => rfl, fun k hk => absurd rfl hk⟩

/-- Helper: the DTO object coming out of the `try` block is either
untouched or the successful result of the extraction step applied to the
parsed body of an actually obtained response. -/
theorem tryValidate_object_spec (config : ApiValidatorOptions)
    (value : JSValue) (property : String) (object : String → JSValue)
    (env : FetchOutcome) :
    (tryValidate config value property object env).2.1 = object ∨
    ∃ delay status jsonBody object2,
      env = FetchOutcome.respond delay status jsonBody ∧
      applyExtraction config (jsonBody.getD JSValue.null) object
        = Except.ok object2 ∧
      (tryValidate config value property object env).2.1 = object2 := by
  unfold tryValidate
  cases computeBodyData config value property object with
  | error e => left; rfl
  | ok bd =>
    cases env with
    | fail => left; rfl
    | respond delay status jsonBody =>
      by_cases hto : config.timeout.getD 5000 ≤ delay
      · left; simp [hto]
      · cases hax : applyExtraction config (jsonBody.getD JSValue.null) object with
        | error e => left; simp [hto, hax]
        | ok object2 =>
          right
          refine ⟨delay, status, jsonBody, object2, rfl, hax, ?_⟩
          cases hfr : finalResult config status (jsonBody.getD JSValue.null) with
          | error e => simp [hto, hax, hfr]
          | ok b => simp [hto, hax, hfr]

/-- C7: frame property of `validate`.  Every field of the caller-supplied
DTO object other than the configured target field is unchanged by the
call, and any change at all entails that an extraction function is
configured, that the changed key is exactly the configured target field,
and that the response body parsed as JSON.  (Caller-supplied callbacks
are modelled as pure functions of the object, which is the spec's reading
of the validator's own side effects.) -/
theorem dto_object_frame (config : ApiValidatorOptions) (value : JSValue)
    (property : String) (object : String → JSValue) (env : FetchOutcome) :
    (∀ k, config.targetField ≠ some k →
      (ApiValidatorConstraint.validate config value property object env).object k
        = object k) ∧
    (∀ k, (ApiValidatorConstraint.validate config value property object env).object k
        ≠ object k →
      config.extractValue.isSome = true ∧ config.targetField = some k ∧
      ∃ delay status d, env = FetchOutcome.respond delay status (some d)) := by
  by_cases hv : value.truthy = true
  · rw [validate_object_eq config value property object env hv]
    rcases tryValidate_object_spec config value property object env with
      h | ⟨delay, status, jsonBody, object2, henv, hax, h⟩
    · rw [h]; exact ⟨fun k _ => rfl, fun k hk => absurd rfl hk⟩
    · rw [h]
      obtain ⟨h1, h2⟩ :=
        applyExtraction_frame config (jsonBody.getD JSValue.null) object object2 hax
      refine ⟨h1, fun k hk => ?_⟩
      obtain ⟨he, htf, hdt⟩ := h2 k hk
      refine ⟨he, htf, ?_⟩
      cases jsonBody with
      | none => exact absurd hdt (by simp [JSValue.truthy])
      | some d => exact ⟨delay, status, d, henv⟩
  · have hvf : value.truthy = false := by
      revert hv; cases value.truthy <;> simp
    have hobj : (ApiValidatorConstraint.validate config value property object env).object
        = object := by
      simp [ApiValidatorConstraint.validate, hvf]
    rw [hobj]
    exact ⟨fun k _ => rfl, fun k hk => absurd rfl hk⟩

/-- Witness for C7 at a concrete input: with no target field configured,
an arbitrary key of the DTO object is untouched by a full successful
call. -/
theorem dto_object_frame_witness :
    (({ host := "h" } : ApiValidatorOptions).targetField ≠ some "a") ∧
    (ApiValidatorConstraint.validate { host := "h" } (JSValue.str "v") "f"
      (fun _ => JSValue.null) (FetchOutcome.respond 0 200 none)).object "a"
      = ((fun _ => JSValue.null) : String → JSValue) "a" :=
  ⟨by decide,
    (dto_object_frame { host := "h" } (JSValue.str "v") "f"
      (fun _ => JSValue.null) (FetchOutcome.respond 0 200 none)).1 "a" (by decide)⟩
